import Mathlib

set_option maxRecDepth 4000

/-!
Verification development for the Express product-catalog server (`src/server.js`).

The JavaScript handlers are shallowly embedded as pure Lean functions over an
explicit catalog state.  JavaScript strings are Lean `String`s, JS numbers that
carry prices are modelled as exact rationals `ℚ` (the spec calls them positive
reals; no claim here depends on binary floating-point artefacts), and the
possibly-NaN integer results of `parseInt` are `Option Int` with `none` playing
the role of `NaN`.  `uuidv4()` is modelled as drawing from a fresh-identifier
supply (a counter threaded through the state); the only property the code needs
from it is that generated ids are never reused.
-/

namespace Catalog

/-- JS whitespace recognizer used by `String.prototype.trim` (ASCII subset;
the seed data and all claims only involve ASCII text). -/
def isJsWs (c : Char) : Bool :=
  c = ' ' || c = '\t' || c = '\n' || c = '\r'

/-- Model of `String.prototype.trim`: drop whitespace from both ends. -/
def jsTrim (s : String) : String :=
  ⟨((s.toList.dropWhile isJsWs).reverse.dropWhile isJsWs).reverse⟩

/-- Model of `String.prototype.toLowerCase` (ASCII; all data in scope is
ASCII).  Defined over `toList` rather than via `String.map` so that it
evaluates inside the kernel. -/
def jsLower (s : String) : String :=
  ⟨s.toList.map Char.toLower⟩

/-- Contiguous-sublist test on lists (model of `String.prototype.includes`
after `toList`). -/
def infixOf [DecidableEq α] (needle hay : List α) : Bool :=
  match hay with
  | [] => needle = []
  | _ :: t => needle.isPrefixOf hay || infixOf needle t

/-- Model of `hay.includes(needle)` on JS strings. -/
def strIncludes (hay needle : String) : Bool :=
  infixOf needle.toList hay.toList

/-- Digits-to-number accumulator for `parseIntJs`. -/
def digitsVal (ds : List Char) : Nat :=
  ds.foldl (fun acc c => acc * 10 + (c.toNat - '0'.toNat)) 0

/-- Model of JavaScript `parseInt(s)` restricted to decimal notation:
skip leading whitespace, read an optional sign and then the maximal run of
decimal digits; no digits means `NaN`, modelled as `none`.  (The hexadecimal
`0x` form of `parseInt` is not modelled; no route in scope feeds it.) -/
def parseIntJs (s : String) : Option Int :=
  let cs := s.toList.dropWhile isJsWs
  let signed : Int × List Char :=
    match cs with
    | '-' :: r => (-1, r)
    | '+' :: r => (1, r)
    | _ => (1, cs)
  let ds := signed.2.takeWhile (fun c => c.isDigit)
  if ds = [] then none else some (signed.1 * digitsVal ds)

/-- NaN-propagating subtraction on JS numbers (`none` = NaN). -/
def jsSub (a b : Option Int) : Option Int :=
  match a, b with
  | some x, some y => some (x - y)
  | _, _ => none

/-- NaN-propagating multiplication on JS numbers (`none` = NaN). -/
def jsMul (a b : Option Int) : Option Int :=
  match a, b with
  | some x, some y => some (x * y)
  | _, _ => none

/-- JS `<` comparison: any comparison with NaN is false. -/
def jsLtB (a b : Option Int) : Bool :=
  match a, b with
  | some x, some y => decide (x < y)
  | _, _ => false

/-- `ToIntegerOrInfinity` as used by `Array.prototype.slice`: NaN becomes 0. -/
def jsIndex (a : Option Int) : Int :=
  match a with
  | some x => x
  | none => 0

/-- Model of `Array.prototype.slice(start, end)`: negative indices count from
the end, indices are clamped to `[0, length]`, NaN indices act as 0. -/
def jsSlice (l : List α) (start stop : Option Int) : List α :=
  let len : Int := l.length
  let s := jsIndex start
  let e := jsIndex stop
  let k : Int := if s < 0 then max (len + s) 0 else min s len
  let f : Int := if e < 0 then max (len + e) 0 else min e len
  (l.take f.toNat).drop k.toNat

/-- Result of `Math.ceil(n / m)` in the pagination metadata: `m` may be NaN
(`none`), zero (giving `Infinity` or `NaN`), negative, or positive. -/
inductive JsNum where
  | int (i : Int)
  | nan
  | inf
deriving DecidableEq, Repr

/-- `Math.ceil(n / m)` for a nonnegative integer numerator `n` and a JS
integer-or-NaN denominator `m`. -/
def jsCeilDiv (n : Nat) (m : Option Int) : JsNum :=
  match m with
  | none => .nan
  | some m =>
    if m = 0 then (if n = 0 then .nan else .inf)
    else if 0 < m then .int ((n + m.toNat - 1) / m.toNat)
    else .int (-(n / m.natAbs : Nat))

/-- A product record as stored in the `products` array.  `id` is a natural
number drawn from the fresh-identifier supply standing in for `uuidv4()`. -/
structure Product where
  id : Nat
  name : String
  description : String
  price : ℚ
  category : String
  inStock : Bool
deriving DecidableEq, Repr

/-- The five seeded products (`products` initializer, ids 0–4 standing for the
five `uuidv4()` calls). -/
def seedProducts : List Product :=
  [ ⟨0, "Gaming Laptop", "High-performance laptop for gaming and productivity",
      mkRat 129999 100, "Electronics", true⟩,
    ⟨1, "Smartphone Pro", "Latest flagship smartphone with advanced camera",
      mkRat 89999 100, "Electronics", true⟩,
    ⟨2, "Coffee Maker", "Automatic drip coffee maker with programmable timer",
      mkRat 7999 100, "Kitchen", false⟩,
    ⟨3, "Ergonomic Office Chair", "Comfortable office chair with lumbar support",
      mkRat 24999 100, "Furniture", true⟩,
    ⟨4, "Wireless Mouse", "Precision wireless mouse with long battery life",
      mkRat 3999 100, "Electronics", true⟩ ]

/-- Query parameters of `GET /api/products`; `none` means the parameter is
absent from the query string. -/
structure ListQuery where
  category : Option String
  search : Option String
  page : Option String
  limit : Option String
  inStock : Option String
deriving DecidableEq

/-- Response body of `GET /api/products`.  `currentPage` is `parseInt(page)`
and may be NaN (`none`); `totalPages` is a `Math.ceil` result. -/
structure ListResponse where
  products : List Product
  currentPage : Option Int
  totalPages : JsNum
  totalProducts : Nat
  hasNext : Bool
  hasPrev : Bool
deriving DecidableEq, Repr

/-- The three filter steps of the `GET /api/products` handler, in source
order: category (skipped when falsy, i.e. absent or empty), stock (applied
whenever present, `'true'` parsing to `true` and anything else to `false`),
then search (skipped when falsy) over name, description and category. -/
def applyFilters (ps : List Product) (category inStock search : Option String) :
    List Product :=
  let f1 :=
    match category with
    | some c =>
      if c ≠ "" then
        ps.filter (fun p => (jsLower p.category) == (jsLower c))
      else ps
    | none => ps
  let f2 :=
    match inStock with
    | some s => f1.filter (fun p => p.inStock == (s == "true"))
    | none => f1
  match search with
  | some s =>
    if s ≠ "" then
      f2.filter (fun p =>
        strIncludes (jsLower p.name) (jsLower s) ||
        strIncludes (jsLower p.description) (jsLower s) ||
        strIncludes (jsLower p.category) (jsLower s))
    else f2
  | none => f2

/-- The `GET /api/products` handler: filter steps, then `parseInt` of the
`page`/`limit` parameters (absent parameters default to the numbers 1 and 10
before parsing), then the slice `[(page-1)*limit, page*limit)` and the
pagination metadata computed from the filtered list. -/
def listProducts (ps : List Product) (q : ListQuery) : ListResponse :=
  let filtered := applyFilters ps q.category q.inStock q.search
  let pageNum : Option Int :=
    match q.page with
    | none => some 1
    | some s => parseIntJs s
  let limitNum : Option Int :=
    match q.limit with
    | none => some 10
    | some s => parseIntJs s
  let startIndex := jsMul (jsSub pageNum (some 1)) limitNum
  let endIndex := jsMul pageNum limitNum
  { products := jsSlice filtered startIndex endIndex
    currentPage := pageNum
    totalPages := jsCeilDiv filtered.length limitNum
    totalProducts := filtered.length
    hasNext := jsLtB endIndex (some filtered.length)
    hasPrev := jsLtB (some 0) startIndex }

/-- Dynamically-typed JavaScript values, as far as the request bodies need:
`undefined`, `null`, booleans, (non-NaN) numbers, NaN, and strings. -/
inductive JsVal where
  | undef
  | null
  | bool (b : Bool)
  | num (q : ℚ)
  | nan
  | str (s : String)
deriving DecidableEq, Repr

/-- JS truthiness: `undefined`, `null`, `false`, `0`, `NaN` and `""` are
falsy, everything else truthy. -/
def jsTruthy : JsVal → Bool
  | .undef => false
  | .null => false
  | .bool b => b
  | .num q => q ≠ 0
  | .nan => false
  | .str s => s ≠ ""

/-- `typeof v === 'string'`. -/
def jsIsString : JsVal → Bool
  | .str _ => true
  | _ => false

/-- `typeof v === 'number'` (NaN is a number in JS). -/
def jsIsNumber : JsVal → Bool
  | .num _ => true
  | .nan => true
  | _ => false

/-- `typeof v === 'boolean'`. -/
def jsIsBool : JsVal → Bool
  | .bool _ => true
  | _ => false

/-- The string payload of a value; only consulted after `jsIsString` has
guarded it (JS short-circuits `||` the same way). -/
def jsStrVal : JsVal → String
  | .str s => s
  | _ => ""

/-- The numeric payload of a value; only consulted after `jsIsNumber` and
truthiness have guarded it.  Also models `parseFloat` applied to a number,
which is the identity on finite numbers. -/
def jsNumVal : JsVal → ℚ
  | .num q => q
  | _ => 0

/-- `v <= 0` on a JS number; comparisons with NaN are false. -/
def jsLeZero : JsVal → Bool
  | .num q => decide (q ≤ 0)
  | _ => false

/-- A request body for POST/PUT: the five destructured fields, each an
arbitrary JS value (`undef` models an absent field). -/
structure Body where
  name : JsVal
  description : JsVal
  price : JsVal
  category : JsVal
  inStock : JsVal
deriving DecidableEq, Repr

/-- Condition of `validateProduct`'s first check:
`!name || typeof name !== 'string' || name.trim().length < 2`. -/
def nameInvalid (v : JsVal) : Bool :=
  !jsTruthy v || !jsIsString v || (jsTrim (jsStrVal v)).length < 2

/-- Condition of the description check (minimum trimmed length 5). -/
def descriptionInvalid (v : JsVal) : Bool :=
  !jsTruthy v || !jsIsString v || (jsTrim (jsStrVal v)).length < 5

/-- Condition of the price check:
`!price || typeof price !== 'number' || price <= 0`. -/
def priceInvalid (v : JsVal) : Bool :=
  !jsTruthy v || !jsIsNumber v || jsLeZero v

/-- Condition of the category check (minimum trimmed length 2). -/
def categoryInvalid (v : JsVal) : Bool :=
  !jsTruthy v || !jsIsString v || (jsTrim (jsStrVal v)).length < 2

/-- Condition of the `inStock` check: `typeof inStock !== 'boolean'`. -/
def inStockInvalid (v : JsVal) : Bool :=
  !jsIsBool v

def nameMsg : String := "Name is required and must be at least 2 characters"

def descriptionMsg : String :=
  "Description is required and must be at least 5 characters"

def priceMsg : String := "Price is required and must be a positive number"

def categoryMsg : String :=
  "Category is required and must be at least 2 characters"

def inStockMsg : String := "inStock is required and must be a boolean value"

/-- The `errors` array accumulated by the `validateProduct` middleware: each
of the five checks pushes its message independently, in source order. -/
def validateProduct (b : Body) : List String :=
  (if nameInvalid b.name then [nameMsg] else []) ++
  (if descriptionInvalid b.description then [descriptionMsg] else []) ++
  (if priceInvalid b.price then [priceMsg] else []) ++
  (if categoryInvalid b.category then [categoryMsg] else []) ++
  (if inStockInvalid b.inStock then [inStockMsg] else [])

/-- An error response produced by the global error-handling middleware:
HTTP status, the error class name, and the message. -/
structure ErrObj where
  status : Nat
  error : String
  message : String
deriving DecidableEq, Repr

/-- Decidable equality for `Except` results, so that concrete handler
outcomes can be checked by `decide`. -/
instance instDecEqExcept [DecidableEq ε] [DecidableEq α] : DecidableEq (Except ε α) := fun a b =>
  match a, b with
  | .error e, .error f =>
    match decEq e f with
    | isTrue h => isTrue (h ▸ rfl)
    | isFalse h => isFalse (fun hh => h (by cases hh; rfl))
  | .error _, .ok _ => isFalse (fun hh => by cases hh)
  | .ok _, .error _ => isFalse (fun hh => by cases hh)
  | .ok x, .ok y =>
    match decEq x y with
    | isTrue h => isTrue (h ▸ rfl)
    | isFalse h => isFalse (fun hh => h (by cases hh; rfl))

def notFoundProduct : ErrObj := ⟨404, "NotFoundError", "Product not found"⟩

/-- The `ValidationError` raised by `validateProduct` when `errors` is
nonempty: message `Validation failed: ` followed by `errors.join(', ')`. -/
def validationFailed (errs : List String) : ErrObj :=
  ⟨400, "ValidationError", "Validation failed: " ++ String.intercalate ", " errs⟩

def apiKeyRequired : ErrObj := ⟨401, "AuthenticationError", "API key is required"⟩

def apiKeyInvalid : ErrObj := ⟨401, "AuthenticationError", "Invalid API key"⟩

/-- The `authenticateApiKey` middleware: `none` result means the request may
proceed.  The header is `none` when absent; an empty header value is falsy in
JS, so it also triggers the `API key is required` branch. -/
def authenticateApiKey (validKey : String) (apiKey : Option String) :
    Option ErrObj :=
  match apiKey with
  | none => some apiKeyRequired
  | some k =>
    if k = "" then some apiKeyRequired
    else if k ≠ validKey then some apiKeyInvalid
    else none

/-- Model of `Array.prototype.findIndex` (`none` standing for `-1`). -/
def findIndexO (p : α → Bool) : List α → Option Nat
  | [] => none
  | a :: l => if p a then some 0 else (findIndexO p l).map (· + 1)

/-- The normalized product built by the POST and PUT handlers: text fields
trimmed, `parseFloat` on the (already numeric) price, `Boolean(inStock)`
(which is JS truthiness). -/
def mkProduct (id : Nat) (b : Body) : Product :=
  { id := id
    name := jsTrim (jsStrVal b.name)
    description := jsTrim (jsStrVal b.description)
    price := jsNumVal b.price
    category := jsTrim (jsStrVal b.category)
    inStock := jsTruthy b.inStock }

/-- The server state: the `products` array plus the fresh-identifier supply
standing in for `uuidv4()` (every id ever generated is below `nextId`). -/
structure CatalogState where
  products : List Product
  nextId : Nat
deriving DecidableEq, Repr

def initialState : CatalogState := ⟨seedProducts, 5⟩

/-- `GET /api/products/:id`. -/
def getProductById (ps : List Product) (id : Nat) : Except ErrObj Product :=
  match ps.find? (fun p => p.id == id) with
  | none => .error notFoundProduct
  | some p => .ok p

/-- `POST /api/products`: `authenticateApiKey`, then `validateProduct`, then
append the normalized product with a fresh id (HTTP 201 on success). -/
def postProduct (validKey : String) (s : CatalogState) (apiKey : Option String)
    (b : Body) : Except ErrObj Product × CatalogState :=
  match authenticateApiKey validKey apiKey with
  | some e => (.error e, s)
  | none =>
    let errs := validateProduct b
    if errs ≠ [] then (.error (validationFailed errs), s)
    else
      let p := mkProduct s.nextId b
      (.ok p, ⟨s.products ++ [p], s.nextId + 1⟩)

/-- `PUT /api/products/:id`: `authenticateApiKey`, then `validateProduct`,
then `findIndex` on the id — absent id raises `NotFoundError`, otherwise the
record at that position is replaced wholesale, keeping the path id. -/
def putProduct (validKey : String) (s : CatalogState) (apiKey : Option String)
    (id : Nat) (b : Body) : Except ErrObj Product × CatalogState :=
  match authenticateApiKey validKey apiKey with
  | some e => (.error e, s)
  | none =>
    let errs := validateProduct b
    if errs ≠ [] then (.error (validationFailed errs), s)
    else
      match findIndexO (fun p => p.id == id) s.products with
      | none => (.error notFoundProduct, s)
      | some i => (.ok (mkProduct id b), ⟨s.products.set i (mkProduct id b), s.nextId⟩)

/-- `DELETE /api/products/:id`: `authenticateApiKey`, then `findIndex` and
`splice(index, 1)`.  The `none` fallback of the lookup at `i` is unreachable
because `findIndexO` only returns in-bounds indices. -/
def deleteProduct (validKey : String) (s : CatalogState) (apiKey : Option String)
    (id : Nat) : Except ErrObj Product × CatalogState :=
  match authenticateApiKey validKey apiKey with
  | some e => (.error e, s)
  | none =>
    match findIndexO (fun p => p.id == id) s.products with
    | none => (.error notFoundProduct, s)
    | some i =>
      ((s.products[i]?).elim (.error notFoundProduct) .ok,
        ⟨s.products.eraseIdx i, s.nextId⟩)

/-- Response body of `GET /api/products/search`. -/
structure SearchResponse where
  query : String
  results : List Product
  count : Nat
deriving DecidableEq, Repr

/-- `GET /api/products/search`: a falsy `q` (absent or empty) raises
`ValidationError`; otherwise case-insensitive substring match on name OR
description only, returning the full unpaginated match list and its length. -/
def searchProducts (ps : List Product) (q : Option String) :
    Except ErrObj SearchResponse :=
  let qv := match q with | none => "" | some t => t
  if qv = "" then
    .error ⟨400, "ValidationError", "Search query parameter \"q\" is required"⟩
  else
    let results := ps.filter (fun p =>
      strIncludes (jsLower p.name) (jsLower qv) ||
      strIncludes (jsLower p.description) (jsLower qv))
    .ok ⟨qv, results, results.length⟩

/-- Zero-padded two-digit rendering of `n % 100`-style fraction parts. -/
def pad2 (n : Nat) : String :=
  if n < 10 then "0" ++ toString n else toString n

/-- Model of JavaScript `x.toFixed(2)` on an exact rational: round `100 * x`
to the nearest integer (ties towards the larger integer, as the JS spec
prescribes) and print with exactly two digits after the decimal point. -/
def jsToFixed2 (q : ℚ) : String :=
  let n : Int := ⌊q * 100 + 1 / 2⌋
  if n < 0 then
    "-" ++ toString (n.natAbs / 100) ++ "." ++ pad2 (n.natAbs % 100)
  else
    toString (n.toNat / 100) ++ "." ++ pad2 (n.toNat % 100)

/-- A JSON leaf that is either a number or a string: `stats.averagePrice`
is the number `0` for an empty collection and a `toFixed(2)` string
otherwise. -/
inductive JsonVal where
  | num (q : ℚ)
  | str (s : String)
deriving DecidableEq, Repr

/-- The JS object `stats.categoryCounts` built by the stats handler: an
insertion-ordered association of category names to counts. -/
def bumpCategory (m : List (String × Nat)) (c : String) : List (String × Nat) :=
  if m.any (fun kv => kv.1 == c) then
    m.map (fun kv => if kv.1 == c then (kv.1, kv.2 + 1) else kv)
  else m ++ [(c, 1)]

/-- Value looked up in a `categoryCounts` object (`0` when the key is
absent, matching JS property access being falsy `undefined`). -/
def lookupCount (m : List (String × Nat)) (c : String) : Nat :=
  match m.find? (fun kv => kv.1 == c) with
  | none => 0
  | some kv => kv.2

/-- Response body of `GET /api/products/stats`. -/
structure StatsResponse where
  totalProducts : Nat
  inStockCount : Nat
  outOfStockCount : Nat
  categoryCounts : List (String × Nat)
  averagePrice : JsonVal
  totalValue : String
deriving DecidableEq, Repr

/-- `GET /api/products/stats`: counts, category histogram and price totals
over the full unfiltered collection.  The single `forEach` that accumulates
`categoryCounts` and `totalPrice` is rendered as two folds over the same
list (the accumulators are independent). -/
def getStats (ps : List Product) : StatsResponse :=
  let totalPrice : ℚ := ps.foldl (fun acc p => acc + p.price) 0
  let counts := ps.foldl (fun m p => bumpCategory m p.category) []
  { totalProducts := ps.length
    inStockCount := (ps.filter (fun p => p.inStock)).length
    outOfStockCount := (ps.filter (fun p => !p.inStock)).length
    categoryCounts := counts
    averagePrice :=
      if 0 < ps.length then .str (jsToFixed2 (totalPrice / ps.length))
      else .num 0
    totalValue := jsToFixed2 totalPrice }

/-- One mutating request: the operation plus the `x-api-key` header it was
sent with (`none` = header absent). -/
inductive Op where
  | create (apiKey : Option String) (body : Body)
  | replace (apiKey : Option String) (id : Nat) (body : Body)
  | remove (apiKey : Option String) (id : Nat)
deriving DecidableEq

/-- State transition of one mutating request (its response discarded). -/
def stepOp (validKey : String) (s : CatalogState) : Op → CatalogState
  | .create key b => (postProduct validKey s key b).2
  | .replace key id b => (putProduct validKey s key id b).2
  | .remove key id => (deleteProduct validKey s key id).2

/-- The state after a sequence of mutating requests against the seeded
server. -/
def execOps (validKey : String) (ops : List Op) : CatalogState :=
  ops.foldl (stepOp validKey) initialState

/-- The data-model field constraints of §3 for a stored product: text fields
keep the stated minimum lengths after trimming and the price is strictly
positive (`inStock` is a boolean by construction of `Product`). -/
def ValidProduct (p : Product) : Prop :=
  2 ≤ (jsTrim p.name).length ∧ 5 ≤ (jsTrim p.description).length ∧
    0 < p.price ∧ 2 ≤ (jsTrim p.category).length

instance (p : Product) : Decidable (ValidProduct p) := by
  unfold ValidProduct; infer_instance

/-- The fully filtered set as §4.3 of the spec describes it: one pass keeping
exactly the products that match the category case-insensitively, have the
`inStock` value parsed from the query string, and contain the search term as a
case-insensitive substring of name, description or category.  Stated from the
spec's words, to be compared with `applyFilters` (the code's three-step
pipeline). -/
def specFilteredSet (cat stock srch : String) (ps : List Product) : List Product :=
  ps.filter (fun p =>
    ((jsLower p.category) == (jsLower cat)) &&
    (p.inStock == (stock == "true")) &&
    (strIncludes (jsLower p.name) (jsLower srch) ||
     strIncludes (jsLower p.description) (jsLower srch) ||
     strIncludes (jsLower p.category) (jsLower srch)))

/-- The §3 collection invariants: every stored product satisfies the field
constraints, ids are unique, and ids never run ahead of the fresh-id supply. -/
def StateInv (s : CatalogState) : Prop :=
  (∀ p ∈ s.products, ValidProduct p) ∧
    (s.products.map Product.id).Nodup ∧
    ∀ p ∈ s.products, p.id < s.nextId

/-! ### Helper lemmas about the JS string primitives -/

theorem dropWhile_head_false {p : α → Bool} :
    ∀ {l : List α} {a : α} {t : List α}, l.dropWhile p = a :: t → p a = false := by
  intro l
  induction l with
  | nil => intro a t h; simp [List.dropWhile] at h
  | cons x xs ih =>
    intro a t h
    rw [List.dropWhile_cons] at h
    by_cases hx : p x = true
    · rw [if_pos hx] at h; exact ih h
    · rw [if_neg hx] at h
      cases h
      exact Bool.eq_false_iff.mpr hx

theorem dropWhile_of_head_false {p : α → Bool} {a : α} {l : List α}
    (h : p a = false) : (a :: l).dropWhile p = a :: l := by
  rw [List.dropWhile_cons, h]; simp

theorem dropWhile_fix {p : α → Bool} (l : List α) :
    (l.dropWhile p).dropWhile p = l.dropWhile p := by
  cases h : l.dropWhile p with
  | nil => simp [List.dropWhile]
  | cons a t => exact dropWhile_of_head_false (dropWhile_head_false h)

theorem dropWhile_append_singleton {p : α → Bool} {a : α} (h : p a = false) :
    ∀ xs : List α, (xs ++ [a]).dropWhile p = xs.dropWhile p ++ [a] := by
  intro xs
  induction xs with
  | nil => simpa [List.dropWhile] using @dropWhile_of_head_false _ _ a [] h
  | cons x t ih =>
    rw [List.cons_append, List.dropWhile_cons, List.dropWhile_cons]
    by_cases hx : p x = true
    · rw [if_pos hx, if_pos hx]; exact ih
    · rw [if_neg hx, if_neg hx, List.cons_append]

theorem jsTrim_idem (s : String) : jsTrim (jsTrim s) = jsTrim s := by
  have hdata : ∀ l : List Char, (String.mk l).toList = l := fun _ => rfl
  unfold jsTrim
  rw [hdata]
  cases hu : s.toList.dropWhile isJsWs with
  | nil => simp [List.dropWhile]
  | cons a t =>
    have ha : isJsWs a = false := dropWhile_head_false hu
    have hrev : (a :: t).reverse = t.reverse ++ [a] := by simp
    rw [hrev, dropWhile_append_singleton ha]
    have h1 : ((t.reverse.dropWhile isJsWs ++ [a]).reverse).dropWhile isJsWs =
        (t.reverse.dropWhile isJsWs ++ [a]).reverse := by
      rw [List.reverse_append, List.reverse_singleton, List.singleton_append]
      exact dropWhile_of_head_false ha
    rw [h1, List.reverse_reverse]
    cases hX : t.reverse.dropWhile isJsWs with
    | nil => simp [List.dropWhile, ha, dropWhile_of_head_false]
    | cons b u =>
      have hb : isJsWs b = false := dropWhile_head_false hX
      rw [List.cons_append, dropWhile_of_head_false hb]

theorem strIncludes_empty (s : String) : strIncludes s "" = true := by
  unfold strIncludes
  cases h : s.toList with
  | nil => simp [infixOf]
  | cons a t => simp [infixOf, List.isPrefixOf]

/-! ### Helper lemmas about `findIndexO` (the `findIndex` model) -/

theorem findIndexO_eq_none_iff {p : α → Bool} :
    ∀ {l : List α}, findIndexO p l = none ↔ ∀ a ∈ l, p a = false := by
  intro l
  induction l with
  | nil => simp [findIndexO]
  | cons x xs ih =>
    by_cases hx : p x = true
    · simp [findIndexO, hx]
    · simp only [findIndexO, Bool.not_eq_true] at hx
      simp [findIndexO, hx, Option.map_eq_none', ih]

theorem findIndexO_getElem {p : α → Bool} :
    ∀ {l : List α} {i : Nat}, findIndexO p l = some i →
      ∃ a, l[i]? = some a ∧ p a = true := by
  intro l
  induction l with
  | nil => intro i h; simp [findIndexO] at h
  | cons x xs ih =>
    intro i h
    by_cases hx : p x = true
    · simp [findIndexO, hx] at h
      exact ⟨x, by simp [← h], hx⟩
    · simp only [findIndexO, Bool.not_eq_true] at hx
      simp only [findIndexO, hx, Bool.false_eq_true, if_false,
        Option.map_eq_some'] at h
      obtain ⟨i', hi', rfl⟩ := h
      obtain ⟨a, ha, hpa⟩ := ih hi'
      exact ⟨a, by simpa using ha, hpa⟩

theorem findIndexO_earlier {p : α → Bool} :
    ∀ {l : List α} {i : Nat}, findIndexO p l = some i →
      ∀ j, j < i → ∀ b, l[j]? = some b → p b = false := by
  intro l
  induction l with
  | nil => intro i h; simp [findIndexO] at h
  | cons x xs ih =>
    intro i h j hj b hb
    by_cases hx : p x = true
    · simp [findIndexO, hx] at h
      omega
    · simp only [findIndexO, Bool.not_eq_true] at hx
      simp only [findIndexO, hx, Bool.false_eq_true, if_false,
        Option.map_eq_some'] at h
      obtain ⟨i', hi', rfl⟩ := h
      cases j with
      | zero => simp at hb; exact hb ▸ hx
      | succ j' =>
        simp only [List.getElem?_cons_succ] at hb
        exact ih hi' j' (by omega) b hb

theorem set_getElem?_self : ∀ {l : List α} {i : Nat} {a : α},
    l[i]? = some a → l.set i a = l := by
  intro l
  induction l with
  | nil => intro i a h; simp at h
  | cons x xs ih =>
    intro i a h
    cases i with
    | zero => simp at h; simp [List.set, h]
    | succ i' =>
      simp only [List.getElem?_cons_succ] at h
      simp [List.set, ih h]

theorem find?_set_first {p : α → Bool} :
    ∀ {l : List α} {i : Nat} {a : α},
      (∀ j, j < i → ∀ b, l[j]? = some b → p b = false) →
      i < l.length → p a = true → (l.set i a).find? p = some a := by
  intro l
  induction l with
  | nil => intro i a _ hlen; simp at hlen
  | cons x xs ih =>
    intro i a hearlier hlen hpa
    cases i with
    | zero => simp [List.set, List.find?_cons, hpa]
    | succ i' =>
      have hx : p x = false := hearlier 0 (Nat.succ_pos _) x (by simp)
      simp only [List.set, List.find?_cons, hx]
      exact ih (fun j hj b hb => hearlier (j + 1) (by omega) b (by simpa using hb))
        (by simpa using hlen) hpa

/-! ### Validation lemmas -/

theorem if_singleton_eq_nil {c : Bool} {m : String} :
    (if c = true then [m] else []) = [] ↔ c = false := by
  cases c <;> simp

theorem validateProduct_eq_nil_iff {b : Body} :
    validateProduct b = [] ↔
      nameInvalid b.name = false ∧ descriptionInvalid b.description = false ∧
      priceInvalid b.price = false ∧ categoryInvalid b.category = false ∧
      inStockInvalid b.inStock = false := by
  unfold validateProduct
  simp only [List.append_eq_nil, if_singleton_eq_nil]
  tauto

theorem name_valid_of_ok {v : JsVal} (h : nameInvalid v = false) :
    ∃ s, v = .str s ∧ 2 ≤ (jsTrim s).length := by
  unfold nameInvalid at h
  simp only [Bool.or_eq_false_iff, Bool.not_eq_false'] at h
  obtain ⟨⟨-, hstr⟩, hlen⟩ := h
  cases v with
  | str s =>
    refine ⟨s, rfl, ?_⟩
    simpa [jsStrVal] using Nat.le_of_not_lt (by simpa using hlen)
  | undef => simp [jsIsString] at hstr
  | null => simp [jsIsString] at hstr
  | bool b => simp [jsIsString] at hstr
  | num q => simp [jsIsString] at hstr
  | nan => simp [jsIsString] at hstr

theorem description_valid_of_ok {v : JsVal} (h : descriptionInvalid v = false) :
    ∃ s, v = .str s ∧ 5 ≤ (jsTrim s).length := by
  unfold descriptionInvalid at h
  simp only [Bool.or_eq_false_iff, Bool.not_eq_false'] at h
  obtain ⟨⟨-, hstr⟩, hlen⟩ := h
  cases v with
  | str s =>
    refine ⟨s, rfl, ?_⟩
    simpa [jsStrVal] using Nat.le_of_not_lt (by simpa using hlen)
  | undef => simp [jsIsString] at hstr
  | null => simp [jsIsString] at hstr
  | bool b => simp [jsIsString] at hstr
  | num q => simp [jsIsString] at hstr
  | nan => simp [jsIsString] at hstr

theorem category_valid_of_ok {v : JsVal} (h : categoryInvalid v = false) :
    ∃ s, v = .str s ∧ 2 ≤ (jsTrim s).length := by
  unfold categoryInvalid at h
  simp only [Bool.or_eq_false_iff, Bool.not_eq_false'] at h
  obtain ⟨⟨-, hstr⟩, hlen⟩ := h
  cases v with
  | str s =>
    refine ⟨s, rfl, ?_⟩
    simpa [jsStrVal] using Nat.le_of_not_lt (by simpa using hlen)
  | undef => simp [jsIsString] at hstr
  | null => simp [jsIsString] at hstr
  | bool b => simp [jsIsString] at hstr
  | num q => simp [jsIsString] at hstr
  | nan => simp [jsIsString] at hstr

theorem price_valid_of_ok {v : JsVal} (h : priceInvalid v = false) :
    ∃ q : ℚ, v = .num q ∧ 0 < q := by
  unfold priceInvalid at h
  simp only [Bool.or_eq_false_iff, Bool.not_eq_false'] at h
  obtain ⟨⟨htr, hnum⟩, hle⟩ := h
  cases v with
  | num q =>
    refine ⟨q, rfl, ?_⟩
    have : ¬(q ≤ 0) := by simpa [jsLeZero] using hle
    exact lt_of_not_le this
  | nan => simp [jsTruthy] at htr
  | undef => simp [jsIsNumber] at hnum
  | null => simp [jsIsNumber] at hnum
  | bool b => simp [jsIsNumber] at hnum
  | str s => simp [jsIsNumber] at hnum

/-- A body accepted by the validation middleware normalizes to a product
satisfying all data-model field constraints (for any id). -/
theorem validProduct_of_validate_ok {b : Body} (h : validateProduct b = [])
    (id : Nat) : ValidProduct (mkProduct id b) := by
  rw [validateProduct_eq_nil_iff] at h
  obtain ⟨hn, hd, hp, hc, -⟩ := h
  obtain ⟨sn, hsn, hln⟩ := name_valid_of_ok hn
  obtain ⟨sd, hsd, hld⟩ := description_valid_of_ok hd
  obtain ⟨sc, hsc, hlc⟩ := category_valid_of_ok hc
  obtain ⟨q, hq, hq0⟩ := price_valid_of_ok hp
  refine ⟨?_, ?_, ?_, ?_⟩ <;>
    simp [mkProduct, hsn, hsd, hsc, hq, jsStrVal, jsNumVal, jsTrim_idem, hln, hld, hlc, hq0]

/-! ### Pagination lemmas -/

theorem take_min_length (l : List α) (n : Nat) :
    l.take (min n l.length) = l.take n := by
  rcases Nat.le_total n l.length with h | h
  · rw [Nat.min_eq_left h]
  · rw [Nat.min_eq_right h, List.take_length, List.take_of_length_le h]

theorem drop_min_length (l : List α) (n : Nat) :
    l.drop (min n l.length) = l.drop n := by
  rcases Nat.le_total n l.length with h | h
  · rw [Nat.min_eq_left h]
  · rw [Nat.min_eq_right h, List.drop_length, List.drop_eq_nil_of_le h]

theorem drop_min_of_le (l : List α) (n k : Nat) (hk : l.length ≤ k) :
    l.drop (min n k) = l.drop n := by
  rcases Nat.le_total n k with h | h
  · rw [Nat.min_eq_left h]
  · rw [Nat.min_eq_right h, List.drop_eq_nil_of_le hk,
      List.drop_eq_nil_of_le (le_trans hk h)]

theorem jsSlice_nonneg (l : List α) (a b : Int) (ha : 0 ≤ a) (hb : 0 ≤ b) :
    jsSlice l (some a) (some b) = (l.drop a.toNat).take (b.toNat - a.toNat) := by
  unfold jsSlice jsIndex
  simp only [not_lt.mpr ha, not_lt.mpr hb, if_false]
  have hlen : ((l.length : Int)).toNat = l.length := Int.toNat_natCast _
  have hmin : ∀ x : Int, 0 ≤ x → (min x (l.length : Int)).toNat = min x.toNat l.length := by
    intro x hx
    rcases le_total x (l.length : Int) with h | h
    · rw [min_eq_left h, Nat.min_eq_left]
      exact_mod_cast Int.toNat_le_toNat h
    · rw [min_eq_right h, hlen, Nat.min_eq_right]
      exact_mod_cast Int.toNat_le_toNat h
  rw [hmin a ha, hmin b hb, take_min_length,
    drop_min_of_le _ _ _ (by simp [List.length_take]), List.drop_take]

theorem toNat_mul_nonneg {a b : Int} (ha : 0 ≤ a) (hb : 0 ≤ b) :
    (a * b).toNat = a.toNat * b.toNat := by
  rcases Int.eq_ofNat_of_zero_le ha with ⟨m, rfl⟩
  rcases Int.eq_ofNat_of_zero_le hb with ⟨n, rfl⟩
  rw [← Int.natCast_mul, Int.toNat_natCast, Int.toNat_natCast, Int.toNat_natCast]

/-- Evaluation of the listing handler when `page` and `limit` are present and
parse to positive integers: the slice and all metadata, expressed over the
filtered list. -/
theorem listProducts_eval (ps : List Product) (qc qs qi : Option String)
    (pstr lstr : String) (pnum lnum : Int)
    (hp : parseIntJs pstr = some pnum) (hl : parseIntJs lstr = some lnum)
    (hp1 : 1 ≤ pnum) (hl1 : 1 ≤ lnum) :
    listProducts ps ⟨qc, qs, some pstr, some lstr, qi⟩ =
      { products := ((applyFilters ps qc qi qs).drop
            ((pnum.toNat - 1) * lnum.toNat)).take lnum.toNat
        currentPage := some pnum
        totalPages := .int (((applyFilters ps qc qi qs).length + lnum.toNat - 1) / lnum.toNat)
        totalProducts := (applyFilters ps qc qi qs).length
        hasNext := decide (pnum.toNat * lnum.toNat < (applyFilters ps qc qi qs).length)
        hasPrev := decide (0 < (pnum.toNat - 1) * lnum.toNat) } := by
  have hm : 1 ≤ pnum.toNat := by omega
  have hn : 1 ≤ lnum.toNat := by omega
  have hsub : pnum - 1 = ((pnum.toNat - 1 : Nat) : Int) := by omega
  have hstart : ((pnum - 1) * lnum).toNat = (pnum.toNat - 1) * lnum.toNat := by
    rw [hsub, toNat_mul_nonneg (by omega) (by omega), Int.toNat_natCast]
  have hend : (pnum * lnum).toNat = pnum.toNat * lnum.toNat := by
    rw [toNat_mul_nonneg (by omega) (by omega)]
  have htake : pnum.toNat * lnum.toNat - (pnum.toNat - 1) * lnum.toNat = lnum.toNat := by
    have h1 : (pnum.toNat - 1) * lnum.toNat = pnum.toNat * lnum.toNat - lnum.toNat := by
      rw [Nat.sub_mul, Nat.one_mul]
    have h2 : lnum.toNat ≤ pnum.toNat * lnum.toNat :=
      Nat.le_mul_of_pos_left _ (by omega)
    omega
  have hstartc : (pnum - 1) * lnum = (((pnum.toNat - 1) * lnum.toNat : Nat) : Int) := by
    rw [← hstart, Int.toNat_of_nonneg (mul_nonneg (by omega) (by omega))]
  have hendc : pnum * lnum = ((pnum.toNat * lnum.toNat : Nat) : Int) := by
    rw [← hend, Int.toNat_of_nonneg (mul_nonneg (by omega) (by omega))]
  unfold listProducts
  simp only [hp, hl, jsSub, jsMul]
  have hslice := jsSlice_nonneg (applyFilters ps qc qi qs) ((pnum - 1) * lnum) (pnum * lnum)
    (mul_nonneg (by omega) (by omega)) (mul_nonneg (by omega) (by omega))
  rw [hslice, hstart, hend, htake]
  have hceil : jsCeilDiv (applyFilters ps qc qi qs).length (some lnum) =
      .int (((applyFilters ps qc qi qs).length + lnum.toNat - 1) / lnum.toNat) := by
    simp only [jsCeilDiv]
    rw [if_neg (by omega), if_pos (by omega)]
  rw [hceil]
  have hnext : jsLtB (some (pnum * lnum)) (some ((applyFilters ps qc qi qs).length : Int)) =
      decide (pnum.toNat * lnum.toNat < (applyFilters ps qc qi qs).length) := by
    unfold jsLtB
    rw [decide_eq_decide, hendc]
    exact_mod_cast Iff.rfl
  have hprev : jsLtB (some 0) (some ((pnum - 1) * lnum)) =
      decide (0 < (pnum.toNat - 1) * lnum.toNat) := by
    unfold jsLtB
    rw [decide_eq_decide, hstartc]
    exact_mod_cast Iff.rfl
  rw [hnext, hprev]

/-! ### The query pipeline: filter fusion -/

theorem jsLower_empty : (jsLower "") = "" := rfl

theorem applyFilters_present (ps : List Product) (cat stock srch : String)
    (hcat : cat ≠ "") :
    applyFilters ps (some cat) (some stock) (some srch) =
      specFilteredSet cat stock srch ps := by
  simp only [applyFilters, specFilteredSet, ne_eq, if_pos hcat]
  by_cases hs : srch = ""
  · subst hs
    simp only [not_true_eq_false, if_false, ite_false, List.filter_filter]
    apply List.filter_congr
    intro x _
    simp [jsLower_empty, strIncludes_empty, Bool.and_comm]
  · simp only [hs, not_false_eq_true, if_true, ite_true, List.filter_filter]
    apply List.filter_congr
    intro x _
    cases h1 : (jsLower x.category) == (jsLower cat) <;>
      cases h2 : x.inStock == (stock == "true") <;>
        cases h3 : (strIncludes (jsLower x.name) (jsLower srch) ||
          strIncludes (jsLower x.description) (jsLower srch) ||
          strIncludes (jsLower x.category) (jsLower srch)) <;>
      simp [h1, h2, h3]

/-- C1.  For every request to the product listing operation, the query
pipeline applies category filter, then stock filter, then search filter, then
pagination: the response is fully determined by the conjunctively filtered
set (`specFilteredSet`), whose membership is characterized in the second
conjunct (category equal case-insensitively, `inStock` equal to the parse of
the query string where only `"true"` parses to `true`, search term a
case-insensitive substring of name, description or category); the pagination
metadata (total count, total pages) is computed from that fully filtered set,
not the unfiltered collection. -/
theorem c1_query_pipeline (ps : List Product) (cat stock srch pstr lstr : String)
    (pnum lnum : Int) (hcat : cat ≠ "")
    (hp : parseIntJs pstr = some pnum) (hl : parseIntJs lstr = some lnum)
    (hp1 : 1 ≤ pnum) (hl1 : 1 ≤ lnum) :
    (listProducts ps ⟨some cat, some srch, some pstr, some lstr, some stock⟩ =
      { products := ((specFilteredSet cat stock srch ps).drop
            ((pnum.toNat - 1) * lnum.toNat)).take lnum.toNat
        currentPage := some pnum
        totalPages := .int (((specFilteredSet cat stock srch ps).length
            + lnum.toNat - 1) / lnum.toNat)
        totalProducts := (specFilteredSet cat stock srch ps).length
        hasNext := decide (pnum.toNat * lnum.toNat <
            (specFilteredSet cat stock srch ps).length)
        hasPrev := decide (0 < (pnum.toNat - 1) * lnum.toNat) }) ∧
    ∀ p, p ∈ specFilteredSet cat stock srch ps ↔
      p ∈ ps ∧ (jsLower p.category) = (jsLower cat) ∧ p.inStock = (stock == "true") ∧
        (strIncludes (jsLower p.name) (jsLower srch) = true ∨
         strIncludes (jsLower p.description) (jsLower srch) = true ∨
         strIncludes (jsLower p.category) (jsLower srch) = true) := by
  constructor
  · have h := listProducts_eval ps (some cat) (some srch) (some stock)
      pstr lstr pnum lnum hp hl hp1 hl1
    rwa [applyFilters_present ps cat stock srch hcat] at h
  · intro p
    unfold specFilteredSet
    simp only [List.mem_filter, Bool.and_eq_true, Bool.or_eq_true, beq_iff_eq]
    tauto

/-- Witness for C1: `category=Electronics&inStock=true&search=laptop&page=1&limit=10`
against the seed collection keeps exactly the Gaming Laptop, and the metadata
reflects that 1-element filtered set. -/
theorem c1_query_pipeline_witness :
    ("Electronics" : String) ≠ "" ∧ parseIntJs "1" = some 1 ∧
      parseIntJs "10" = some 10 ∧
    listProducts seedProducts
        ⟨some "Electronics", some "laptop", some "1", some "10", some "true"⟩ =
      { products := [⟨0, "Gaming Laptop",
          "High-performance laptop for gaming and productivity",
          mkRat 129999 100, "Electronics", true⟩]
        currentPage := some 1
        totalPages := .int 1
        totalProducts := 1
        hasNext := false
        hasPrev := false } :=
  ⟨by decide, by decide, by decide,
    ((c1_query_pipeline seedProducts "Electronics" "true" "laptop" "1" "10" 1 10
      (by decide) (by decide) (by decide) (by decide) (by decide)).1).trans (by decide)⟩

/-- C2.  For every product sequence and positive parsed page and limit, the
listing operation returns the slice `[(page-1)*limit, page*limit)`, with an
empty page (never an error) when the start index is out of range, and the
metadata `currentPage = page`, `totalPages = ceil(count/limit)`,
`totalProducts = count`, `hasNext = (page*limit < count)`,
`hasPrev = ((page-1)*limit > 0)`. -/
theorem c2_pagination (ps : List Product) (pstr lstr : String)
    (pnum lnum : Int)
    (hp : parseIntJs pstr = some pnum) (hl : parseIntJs lstr = some lnum)
    (hp1 : 1 ≤ pnum) (hl1 : 1 ≤ lnum) :
    (listProducts ps ⟨none, none, some pstr, some lstr, none⟩ =
      { products := (ps.drop ((pnum.toNat - 1) * lnum.toNat)).take lnum.toNat
        currentPage := some pnum
        totalPages := .int ((ps.length + lnum.toNat - 1) / lnum.toNat)
        totalProducts := ps.length
        hasNext := decide (pnum.toNat * lnum.toNat < ps.length)
        hasPrev := decide (0 < (pnum.toNat - 1) * lnum.toNat) }) ∧
    (ps.length ≤ (pnum.toNat - 1) * lnum.toNat →
      (listProducts ps ⟨none, none, some pstr, some lstr, none⟩).products = []) := by
  have h := listProducts_eval ps none none none pstr lstr pnum lnum hp hl hp1 hl1
  have hid : applyFilters ps none none none = ps := rfl
  rw [hid] at h
  refine ⟨h, fun hle => ?_⟩
  rw [h]
  simp [List.drop_eq_nil_of_le hle]

/-- Witness for C2, the concrete example from the spec: with the 5 seeded
products, `limit=2`, `page=3` yields exactly 1 product (the Wireless Mouse),
`hasNext: false`, `hasPrev: true`, `totalPages: 3`. -/
theorem c2_pagination_witness :
    parseIntJs "3" = some 3 ∧ parseIntJs "2" = some 2 ∧
    listProducts seedProducts ⟨none, none, some "3", some "2", none⟩ =
      { products := [⟨4, "Wireless Mouse",
          "Precision wireless mouse with long battery life",
          mkRat 3999 100, "Electronics", true⟩]
        currentPage := some 3
        totalPages := .int 3
        totalProducts := 5
        hasNext := false
        hasPrev := true } :=
  ⟨by decide, by decide,
    ((c2_pagination seedProducts "3" "2" 3 2 (by decide) (by decide)
      (by decide) (by decide)).1).trans (by decide)⟩

/-- C3 (code behavior at the failing input).  A present but non-numeric
`page` does NOT fall back to the default page 1: `parseInt('abc')` is NaN, the
NaN slice indices act as 0 so the page is empty, and `currentPage` is NaN —
whereas the same request with `page=1` returns all five seeded products.  A
present but non-numeric `limit` likewise does not fall back to 10: the page is
empty and `totalPages` is NaN. -/
theorem c3_nonnumeric_page_limit :
    listProducts seedProducts ⟨none, none, some "abc", none, none⟩ =
      { products := []
        currentPage := none
        totalPages := .int 1
        totalProducts := 5
        hasNext := false
        hasPrev := false } ∧
    listProducts seedProducts ⟨none, none, some "1", none, none⟩ =
      { products := seedProducts
        currentPage := some 1
        totalPages := .int 1
        totalProducts := 5
        hasNext := false
        hasPrev := false } ∧
    listProducts seedProducts ⟨none, none, none, some "xyz", none⟩ =
      { products := []
        currentPage := some 1
        totalPages := .nan
        totalProducts := 5
        hasNext := false
        hasPrev := false } := by
  refine ⟨by decide, by decide, by decide⟩

/-! ### C4: validation accumulates all violations -/

theorem mem_validateProduct_iff {b : Body} {m : String} :
    m ∈ validateProduct b ↔
      (nameInvalid b.name = true ∧ m = nameMsg) ∨
      (descriptionInvalid b.description = true ∧ m = descriptionMsg) ∨
      (priceInvalid b.price = true ∧ m = priceMsg) ∨
      (categoryInvalid b.category = true ∧ m = categoryMsg) ∨
      (inStockInvalid b.inStock = true ∧ m = inStockMsg) := by
  unfold validateProduct
  simp [List.mem_append, List.mem_ite_nil_right]

theorem nameInvalid_iff {v : JsVal} :
    nameInvalid v = true ↔
      ¬(jsTruthy v = true ∧ jsIsString v = true ∧
        2 ≤ (jsTrim (jsStrVal v)).length) := by
  unfold nameInvalid
  simp only [Bool.or_eq_true, Bool.not_eq_true', decide_eq_true_eq,
    Bool.eq_false_iff, ne_eq, ← Nat.not_le]
  tauto

theorem descriptionInvalid_iff {v : JsVal} :
    descriptionInvalid v = true ↔
      ¬(jsTruthy v = true ∧ jsIsString v = true ∧
        5 ≤ (jsTrim (jsStrVal v)).length) := by
  unfold descriptionInvalid
  simp only [Bool.or_eq_true, Bool.not_eq_true', decide_eq_true_eq,
    Bool.eq_false_iff, ne_eq, ← Nat.not_le]
  tauto

theorem priceInvalid_iff {v : JsVal} :
    priceInvalid v = true ↔
      ¬(jsTruthy v = true ∧ jsIsNumber v = true ∧ jsLeZero v = false) := by
  unfold priceInvalid
  simp only [Bool.or_eq_true, Bool.not_eq_true', Bool.eq_false_iff, ne_eq]
  tauto

theorem categoryInvalid_iff {v : JsVal} :
    categoryInvalid v = true ↔
      ¬(jsTruthy v = true ∧ jsIsString v = true ∧
        2 ≤ (jsTrim (jsStrVal v)).length) := by
  unfold categoryInvalid
  simp only [Bool.or_eq_true, Bool.not_eq_true', decide_eq_true_eq,
    Bool.eq_false_iff, ne_eq, ← Nat.not_le]
  tauto

theorem msgs_distinct :
    nameMsg ≠ descriptionMsg ∧ nameMsg ≠ priceMsg ∧ nameMsg ≠ categoryMsg ∧
    nameMsg ≠ inStockMsg ∧ descriptionMsg ≠ priceMsg ∧
    descriptionMsg ≠ categoryMsg ∧ descriptionMsg ≠ inStockMsg ∧
    priceMsg ≠ categoryMsg ∧ priceMsg ≠ inStockMsg ∧
    categoryMsg ≠ inStockMsg := by decide

theorem validateProduct_sublist (b : Body) :
    (validateProduct b).Sublist
      [nameMsg, descriptionMsg, priceMsg, categoryMsg, inStockMsg] := by
  unfold validateProduct
  cases nameInvalid b.name <;> cases descriptionInvalid b.description <;>
    cases priceInvalid b.price <;> cases categoryInvalid b.category <;>
      cases inStockInvalid b.inStock <;> simp <;> decide

theorem postProduct_validation_error {b : Body} {validKey : String}
    {s : CatalogState} (hk : validKey ≠ "") (hne : validateProduct b ≠ []) :
    postProduct validKey s (some validKey) b =
      (.error (validationFailed (validateProduct b)), s) := by
  unfold postProduct authenticateApiKey
  simp [hk, hne]

/-- C4.  Validation checks all five rules independently and never
short-circuits: each rule's message appears in the accumulated error list
exactly when that rule is violated (first five conjuncts), the list always
follows the fixed order name, description, price, category, inStock (sublist
conjunct), a nonempty list is signalled as a `ValidationError` whose message
joins every violated rule, and the payload `{name: "a", price: -5}` (with
description, category and inStock absent) yields all five messages. -/
theorem c4_validation_accumulates (b : Body) (validKey : String)
    (s : CatalogState) :
    (nameMsg ∈ validateProduct b ↔
      ¬(jsTruthy b.name = true ∧ jsIsString b.name = true ∧
        2 ≤ (jsTrim (jsStrVal b.name)).length)) ∧
    (descriptionMsg ∈ validateProduct b ↔
      ¬(jsTruthy b.description = true ∧ jsIsString b.description = true ∧
        5 ≤ (jsTrim (jsStrVal b.description)).length)) ∧
    (priceMsg ∈ validateProduct b ↔
      ¬(jsTruthy b.price = true ∧ jsIsNumber b.price = true ∧
        jsLeZero b.price = false)) ∧
    (categoryMsg ∈ validateProduct b ↔
      ¬(jsTruthy b.category = true ∧ jsIsString b.category = true ∧
        2 ≤ (jsTrim (jsStrVal b.category)).length)) ∧
    (inStockMsg ∈ validateProduct b ↔ jsIsBool b.inStock = false) ∧
    (validateProduct b).Sublist
      [nameMsg, descriptionMsg, priceMsg, categoryMsg, inStockMsg] ∧
    (validKey ≠ "" → validateProduct b ≠ [] →
      postProduct validKey s (some validKey) b =
        (.error (validationFailed (validateProduct b)), s)) ∧
    validateProduct ⟨.str "a", .undef, .num (mkRat (-5) 1), .undef, .undef⟩ =
      [nameMsg, descriptionMsg, priceMsg, categoryMsg, inStockMsg] := by
  obtain ⟨d1, d2, d3, d4, d5, d6, d7, d8, d9, d10⟩ := msgs_distinct
  refine ⟨?_, ?_, ?_, ?_, ?_, validateProduct_sublist b,
    fun hk hne => postProduct_validation_error hk hne, by decide⟩
  · rw [mem_validateProduct_iff, ← nameInvalid_iff]
    constructor
    · rintro (⟨h, -⟩ | ⟨-, h⟩ | ⟨-, h⟩ | ⟨-, h⟩ | ⟨-, h⟩) <;>
        first | exact h | exact absurd h (by assumption) |
          exact absurd h (Ne.symm (by assumption))
    · intro h; exact Or.inl ⟨h, rfl⟩
  · rw [mem_validateProduct_iff, ← descriptionInvalid_iff]
    constructor
    · rintro (⟨-, h⟩ | ⟨h, -⟩ | ⟨-, h⟩ | ⟨-, h⟩ | ⟨-, h⟩) <;>
        first | exact h | exact absurd h (by assumption) |
          exact absurd h (Ne.symm (by assumption))
    · intro h; exact Or.inr (Or.inl ⟨h, rfl⟩)
  · rw [mem_validateProduct_iff, ← priceInvalid_iff]
    constructor
    · rintro (⟨-, h⟩ | ⟨-, h⟩ | ⟨h, -⟩ | ⟨-, h⟩ | ⟨-, h⟩) <;>
        first | exact h | exact absurd h (by assumption) |
          exact absurd h (Ne.symm (by assumption))
    · intro h; exact Or.inr (Or.inr (Or.inl ⟨h, rfl⟩))
  · rw [mem_validateProduct_iff, ← categoryInvalid_iff]
    constructor
    · rintro (⟨-, h⟩ | ⟨-, h⟩ | ⟨-, h⟩ | ⟨h, -⟩ | ⟨-, h⟩) <;>
        first | exact h | exact absurd h (by assumption) |
          exact absurd h (Ne.symm (by assumption))
    · intro h; exact Or.inr (Or.inr (Or.inr (Or.inl ⟨h, rfl⟩)))
  · rw [mem_validateProduct_iff]
    have hst : inStockInvalid b.inStock = true ↔ jsIsBool b.inStock = false := by
      unfold inStockInvalid; simp
    rw [← hst]
    constructor
    · rintro (⟨-, h⟩ | ⟨-, h⟩ | ⟨-, h⟩ | ⟨-, h⟩ | ⟨h, -⟩) <;>
        first | exact h | exact absurd h (by assumption) |
          exact absurd h (Ne.symm (by assumption))
    · intro h; exact Or.inr (Or.inr (Or.inr (Or.inr ⟨h, rfl⟩)))

/-- Witness for C4: posting `{name: "a", price: -5}` with the correct API key
against the seeded server is rejected with HTTP 400 and a message enumerating
all five violated rules. -/
theorem c4_validation_accumulates_witness :
    ("secret" : String) ≠ "" ∧
    validateProduct ⟨.str "a", .undef, .num (mkRat (-5) 1), .undef, .undef⟩ ≠ [] ∧
    postProduct "secret" initialState (some "secret")
        ⟨.str "a", .undef, .num (mkRat (-5) 1), .undef, .undef⟩ =
      (.error ⟨400, "ValidationError",
        "Validation failed: Name is required and must be at least 2 characters, Description is required and must be at least 5 characters, Price is required and must be a positive number, Category is required and must be at least 2 characters, inStock is required and must be a boolean value"⟩,
        initialState) :=
  ⟨by decide, by decide,
    (((c4_validation_accumulates
        ⟨.str "a", .undef, .num (mkRat (-5) 1), .undef, .undef⟩ "secret"
        initialState).2.2.2.2.2.2.1 (by decide) (by decide)).trans (by decide))⟩

/-! ### C5: the collection invariants are preserved by every mutation -/

theorem postProduct_state (validKey : String) (s : CatalogState)
    (apiKey : Option String) (b : Body) :
    (postProduct validKey s apiKey b).2 = s ∨
      (validateProduct b = [] ∧
        (postProduct validKey s apiKey b).2 =
          ⟨s.products ++ [mkProduct s.nextId b], s.nextId + 1⟩) := by
  unfold postProduct
  cases h : authenticateApiKey validKey apiKey with
  | some e => exact Or.inl rfl
  | none =>
    by_cases hv : validateProduct b = []
    · exact Or.inr ⟨hv, by simp [hv]⟩
    · exact Or.inl (by simp [hv])

theorem putProduct_state (validKey : String) (s : CatalogState)
    (apiKey : Option String) (id : Nat) (b : Body) :
    (putProduct validKey s apiKey id b).2 = s ∨
      (validateProduct b = [] ∧
        ∃ i a, findIndexO (fun p => p.id == id) s.products = some i ∧
          s.products[i]? = some a ∧ a.id = id ∧
          (putProduct validKey s apiKey id b).2 =
            ⟨s.products.set i (mkProduct id b), s.nextId⟩) := by
  unfold putProduct
  cases h : authenticateApiKey validKey apiKey with
  | some e => exact Or.inl rfl
  | none =>
    by_cases hv : validateProduct b = []
    · cases hf : findIndexO (fun p => p.id == id) s.products with
      | none => exact Or.inl (by simp [hv, hf])
      | some i =>
        obtain ⟨a, ha, hpa⟩ := findIndexO_getElem hf
        exact Or.inr ⟨hv, i, a, rfl, ha, by simpa using hpa, by simp [hv]⟩
    · exact Or.inl (by simp [hv])

theorem deleteProduct_state (validKey : String) (s : CatalogState)
    (apiKey : Option String) (id : Nat) :
    (deleteProduct validKey s apiKey id).2 = s ∨
      ∃ i, findIndexO (fun p => p.id == id) s.products = some i ∧
        (deleteProduct validKey s apiKey id).2 =
          ⟨s.products.eraseIdx i, s.nextId⟩ := by
  unfold deleteProduct
  cases h : authenticateApiKey validKey apiKey with
  | some e => exact Or.inl rfl
  | none =>
    cases hf : findIndexO (fun p => p.id == id) s.products with
    | none => exact Or.inl (by simp [hf])
    | some i => exact Or.inr ⟨i, rfl, by simp [hf]⟩

theorem stateInv_initial : StateInv initialState := by
  refine ⟨?_, ?_, ?_⟩ <;> decide

theorem stateInv_append {s : CatalogState} {b : Body}
    (hinv : StateInv s) (hv : validateProduct b = []) :
    StateInv ⟨s.products ++ [mkProduct s.nextId b], s.nextId + 1⟩ := by
  obtain ⟨hval, hnd, hbd⟩ := hinv
  refine ⟨?_, ?_, ?_⟩
  · rw [List.forall_mem_append]
    exact ⟨hval, by simpa using validProduct_of_validate_ok hv s.nextId⟩
  · show ((s.products ++ [mkProduct s.nextId b]).map Product.id).Nodup
    rw [List.map_append, List.nodup_append]
    refine ⟨hnd, by simp, ?_⟩
    intro a hmem hmem'
    simp only [List.map_cons, List.map_nil, List.mem_singleton] at hmem'
    obtain ⟨p, hp, rfl⟩ := List.mem_map.mp hmem
    have := hbd p hp
    simp only [mkProduct] at hmem'
    omega
  · intro p hp
    rcases List.mem_append.mp hp with h | h
    · exact Nat.lt_succ_of_lt (hbd p h)
    · simp only [List.mem_singleton] at h
      subst h
      simp [mkProduct]

theorem stateInv_set {s : CatalogState} {b : Body} {i : Nat} {a : Product}
    {id : Nat} (hinv : StateInv s) (hv : validateProduct b = [])
    (ha : s.products[i]? = some a) (haid : a.id = id) :
    StateInv ⟨s.products.set i (mkProduct id b), s.nextId⟩ := by
  obtain ⟨hval, hnd, hbd⟩ := hinv
  have hids : (s.products.set i (mkProduct id b)).map Product.id =
      s.products.map Product.id := by
    rw [List.map_set]
    apply set_getElem?_self
    rw [List.getElem?_map, ha]
    simp [mkProduct, haid]
  refine ⟨?_, ?_, ?_⟩
  · intro p hp
    rcases List.mem_or_eq_of_mem_set hp with h | h
    · exact hval p h
    · exact h ▸ validProduct_of_validate_ok hv id
  · show ((s.products.set i (mkProduct id b)).map Product.id).Nodup
    rw [hids]; exact hnd
  · intro p hp
    rcases List.mem_or_eq_of_mem_set hp with h | h
    · exact hbd p h
    · subst h
      show (mkProduct id b).id < s.nextId
      have : a ∈ s.products := List.getElem?_mem ha
      have := hbd a this
      simp only [mkProduct]
      omega

theorem stateInv_erase {s : CatalogState} {i : Nat} (hinv : StateInv s) :
    StateInv ⟨s.products.eraseIdx i, s.nextId⟩ := by
  obtain ⟨hval, hnd, hbd⟩ := hinv
  have hsub : (s.products.eraseIdx i).Sublist s.products :=
    List.eraseIdx_sublist s.products i
  exact ⟨fun p hp => hval p (hsub.subset hp),
    (hsub.map Product.id).nodup hnd,
    fun p hp => hbd p (hsub.subset hp)⟩

theorem stateInv_step (validKey : String) (s : CatalogState) (op : Op)
    (hinv : StateInv s) : StateInv (stepOp validKey s op) := by
  cases op with
  | create key b =>
    show StateInv (postProduct validKey s key b).2
    rcases postProduct_state validKey s key b with h | ⟨hv, h⟩
    · rw [h]; exact hinv
    · rw [h]; exact stateInv_append hinv hv
  | replace key id b =>
    show StateInv (putProduct validKey s key id b).2
    rcases putProduct_state validKey s key id b with h | ⟨hv, i, a, -, ha, haid, h⟩
    · rw [h]; exact hinv
    · rw [h]; exact stateInv_set hinv hv ha haid
  | remove key id =>
    show StateInv (deleteProduct validKey s key id).2
    rcases deleteProduct_state validKey s key id with h | ⟨i, -, h⟩
    · rw [h]; exact hinv
    · rw [h]; exact stateInv_erase hinv

theorem stateInv_foldl (validKey : String) :
    ∀ (ops : List Op) (s : CatalogState), StateInv s →
      StateInv (ops.foldl (stepOp validKey) s) := by
  intro ops
  induction ops with
  | nil => intro s h; exact h
  | cons op rest ih =>
    intro s h
    exact ih (stepOp validKey s op) (stateInv_step validKey s op h)

theorem step_ids_sublist (validKey : String) (s : CatalogState) (op : Op) :
    ((stepOp validKey s op).products.map Product.id).Sublist
      (s.products.map Product.id ++ [s.nextId]) := by
  cases op with
  | create key b =>
    show ((postProduct validKey s key b).2.products.map Product.id).Sublist _
    rcases postProduct_state validKey s key b with h | ⟨hv, h⟩
    · rw [h]; exact List.sublist_append_left _ _
    · rw [h]
      show ((s.products ++ [mkProduct s.nextId b]).map Product.id).Sublist _
      rw [List.map_append]
      exact List.Sublist.refl _
  | replace key id b =>
    show ((putProduct validKey s key id b).2.products.map Product.id).Sublist _
    rcases putProduct_state validKey s key id b with h | ⟨hv, i, a, -, ha, haid, h⟩
    · rw [h]; exact List.sublist_append_left _ _
    · rw [h]
      show ((s.products.set i (mkProduct id b)).map Product.id).Sublist _
      have hids : (s.products.set i (mkProduct id b)).map Product.id =
          s.products.map Product.id := by
        rw [List.map_set]
        apply set_getElem?_self
        rw [List.getElem?_map, ha]
        simp [mkProduct, haid]
      rw [hids]
      exact List.sublist_append_left _ _
  | remove key id =>
    show ((deleteProduct validKey s key id).2.products.map Product.id).Sublist _
    rcases deleteProduct_state validKey s key id with h | ⟨i, -, h⟩
    · rw [h]; exact List.sublist_append_left _ _
    · rw [h]
      show ((s.products.eraseIdx i).map Product.id).Sublist _
      exact ((List.eraseIdx_sublist s.products i).map Product.id).trans
        (List.sublist_append_left _ _)

/-- C5.  After every sequence of create, replace and delete requests starting
from the seeded collection, every stored product satisfies the data-model
field constraints and all ids are distinct; moreover each single step
preserves insertion order: the id sequence after a step is a subsequence of
the previous id sequence with at most the freshly generated id appended at
the end (so existing records never move relative to one another and new ones
only append). -/
theorem c5_collection_invariants (validKey : String) (ops : List Op) :
    (∀ p ∈ (execOps validKey ops).products, ValidProduct p) ∧
    ((execOps validKey ops).products.map Product.id).Nodup ∧
    ∀ (s : CatalogState) (op : Op),
      ((stepOp validKey s op).products.map Product.id).Sublist
        (s.products.map Product.id ++ [s.nextId]) := by
  have hinv : StateInv (execOps validKey ops) :=
    stateInv_foldl validKey ops initialState stateInv_initial
  exact ⟨hinv.1, hinv.2.1, fun s op => step_ids_sublist validKey s op⟩

/-! ### C6: replace overwrites in place -/

theorem authenticateApiKey_ok {validKey : String} (hk : validKey ≠ "") :
    authenticateApiKey validKey (some validKey) = none := by
  simp [authenticateApiKey, hk]

/-- C6.  With a valid candidate and a good API key, `PUT /api/products/:id`
signals `NotFoundError` (leaving the state unchanged) when no product has the
requested id; otherwise it overwrites the record at the found position with
the normalized candidate keeping the path id, leaves every other position and
the id supply unchanged, returns the updated record, and `getProductById`
afterwards returns exactly the new record. -/
theorem c6_replace_semantics (validKey : String) (s : CatalogState) (id : Nat)
    (b : Body) (hk : validKey ≠ "") (hv : validateProduct b = []) :
    ((∀ p ∈ s.products, p.id ≠ id) →
      putProduct validKey s (some validKey) id b = (.error notFoundProduct, s)) ∧
    ∀ i, findIndexO (fun p => p.id == id) s.products = some i →
      putProduct validKey s (some validKey) id b =
        (.ok (mkProduct id b), ⟨s.products.set i (mkProduct id b), s.nextId⟩) ∧
      (mkProduct id b).id = id ∧
      (s.products.set i (mkProduct id b)).length = s.products.length ∧
      (∀ j, j ≠ i → (s.products.set i (mkProduct id b))[j]? = s.products[j]?) ∧
      (s.products.set i (mkProduct id b))[i]? = some (mkProduct id b) ∧
      getProductById (s.products.set i (mkProduct id b)) id =
        .ok (mkProduct id b) := by
  have hauth := authenticateApiKey_ok hk
  constructor
  · intro hnone
    have hf : findIndexO (fun p => p.id == id) s.products = none :=
      findIndexO_eq_none_iff.mpr
        (fun a ha => beq_eq_false_iff_ne.mpr (hnone a ha))
    simp [putProduct, hauth, hv, hf]
  · intro i hf
    obtain ⟨a, ha, hpa⟩ := findIndexO_getElem hf
    have hlen : i < s.products.length := by
      rcases List.getElem?_eq_some.mp ha with ⟨h, -⟩
      exact h
    refine ⟨by simp [putProduct, hauth, hv, hf], rfl, List.length_set _ _ _, ?_, ?_, ?_⟩
    · intro j hj
      rw [List.getElem?_set, if_neg (fun h => hj h.symm)]
    · rw [List.getElem?_set, if_pos rfl, if_pos hlen]
    · unfold getProductById
      rw [find?_set_first (findIndexO_earlier hf) hlen (by simp [mkProduct])]

/-- Witness for C6: replacing the Coffee Maker (id 2) in the seeded catalog
with a valid candidate rewrites exactly position 2, and a subsequent lookup
of id 2 returns the new record. -/
theorem c6_replace_semantics_witness :
    ("secret" : String) ≠ "" ∧
    validateProduct ⟨.str "New Name", .str "new desc!", .num (mkRat 5 1),
      .str "Kit", .bool true⟩ = [] ∧
    findIndexO (fun p => p.id == 2) initialState.products = some 2 ∧
    putProduct "secret" initialState (some "secret") 2
        ⟨.str "New Name", .str "new desc!", .num (mkRat 5 1),
          .str "Kit", .bool true⟩ =
      (.ok ⟨2, "New Name", "new desc!", mkRat 5 1, "Kit", true⟩,
        ⟨[ ⟨0, "Gaming Laptop",
             "High-performance laptop for gaming and productivity",
             mkRat 129999 100, "Electronics", true⟩,
           ⟨1, "Smartphone Pro",
             "Latest flagship smartphone with advanced camera",
             mkRat 89999 100, "Electronics", true⟩,
           ⟨2, "New Name", "new desc!", mkRat 5 1, "Kit", true⟩,
           ⟨3, "Ergonomic Office Chair",
             "Comfortable office chair with lumbar support",
             mkRat 24999 100, "Furniture", true⟩,
           ⟨4, "Wireless Mouse",
             "Precision wireless mouse with long battery life",
             mkRat 3999 100, "Electronics", true⟩ ], 5⟩) ∧
    getProductById
        [ ⟨0, "Gaming Laptop",
            "High-performance laptop for gaming and productivity",
            mkRat 129999 100, "Electronics", true⟩,
          ⟨1, "Smartphone Pro",
            "Latest flagship smartphone with advanced camera",
            mkRat 89999 100, "Electronics", true⟩,
          ⟨2, "New Name", "new desc!", mkRat 5 1, "Kit", true⟩,
          ⟨3, "Ergonomic Office Chair",
            "Comfortable office chair with lumbar support",
            mkRat 24999 100, "Furniture", true⟩,
          ⟨4, "Wireless Mouse",
            "Precision wireless mouse with long battery life",
            mkRat 3999 100, "Electronics", true⟩ ] 2 =
      .ok ⟨2, "New Name", "new desc!", mkRat 5 1, "Kit", true⟩ := by
  have h := (c6_replace_semantics "secret" initialState 2
    ⟨.str "New Name", .str "new desc!", .num (mkRat 5 1), .str "Kit", .bool true⟩
    (by decide) (by decide)).2 2 (by decide)
  refine ⟨by decide, by decide, by decide, h.1.trans (by decide), ?_⟩
  have e1 : initialState.products.set 2 (mkProduct 2
      ⟨.str "New Name", .str "new desc!", .num (mkRat 5 1), .str "Kit", .bool true⟩) =
      [ ⟨0, "Gaming Laptop",
          "High-performance laptop for gaming and productivity",
          mkRat 129999 100, "Electronics", true⟩,
        ⟨1, "Smartphone Pro",
          "Latest flagship smartphone with advanced camera",
          mkRat 89999 100, "Electronics", true⟩,
        ⟨2, "New Name", "new desc!", mkRat 5 1, "Kit", true⟩,
        ⟨3, "Ergonomic Office Chair",
          "Comfortable office chair with lumbar support",
          mkRat 24999 100, "Furniture", true⟩,
        ⟨4, "Wireless Mouse",
          "Precision wireless mouse with long battery life",
          mkRat 3999 100, "Electronics", true⟩ ] := by decide
  have e2 : mkProduct 2 ⟨.str "New Name", .str "new desc!", .num (mkRat 5 1),
      .str "Kit", .bool true⟩ = ⟨2, "New Name", "new desc!", mkRat 5 1, "Kit", true⟩ := by
    decide
  rw [← e1, ← e2]
  exact h.2.2.2.2.2

/-! ### C7: the dedicated search endpoint -/

/-- C7.  The dedicated search operation rejects an absent or empty `q` with a
`ValidationError`; for a nonempty term it returns the full unpaginated list of
products whose name OR description contains the term case-insensitively
(category is not consulted), together with the count of matches. -/
theorem c7_search_endpoint (ps : List Product) (t : String) :
    searchProducts ps none =
      .error ⟨400, "ValidationError", "Search query parameter \"q\" is required"⟩ ∧
    searchProducts ps (some "") =
      .error ⟨400, "ValidationError", "Search query parameter \"q\" is required"⟩ ∧
    (t ≠ "" →
      searchProducts ps (some t) =
        .ok ⟨t, ps.filter (fun p =>
            strIncludes (jsLower p.name) (jsLower t) ||
            strIncludes (jsLower p.description) (jsLower t)),
          (ps.filter (fun p =>
            strIncludes (jsLower p.name) (jsLower t) ||
            strIncludes (jsLower p.description) (jsLower t))).length⟩ ∧
      ∀ p, p ∈ ps.filter (fun p =>
            strIncludes (jsLower p.name) (jsLower t) ||
            strIncludes (jsLower p.description) (jsLower t)) ↔
          p ∈ ps ∧ (strIncludes (jsLower p.name) (jsLower t) = true ∨
            strIncludes (jsLower p.description) (jsLower t) = true)) := by
  refine ⟨rfl, rfl, fun ht => ⟨by simp [searchProducts, ht], fun p => ?_⟩⟩
  simp [List.mem_filter, Bool.or_eq_true]

/-- Witness for C7: the query `LAPTOP` matches the product named
`Gaming Laptop` case-insensitively (and nothing else in the seed data),
with count 1. -/
theorem c7_search_endpoint_witness :
    ("LAPTOP" : String) ≠ "" ∧
    searchProducts seedProducts (some "LAPTOP") =
      .ok ⟨"LAPTOP",
        [⟨0, "Gaming Laptop",
          "High-performance laptop for gaming and productivity",
          mkRat 129999 100, "Electronics", true⟩], 1⟩ :=
  ⟨by decide,
    (((c7_search_endpoint seedProducts "LAPTOP").2.2 (by decide)).1).trans
      (by decide)⟩

/-! ### C8: statistics aggregation -/

theorem foldl_add_price :
    ∀ (ps : List Product) (a : ℚ),
      ps.foldl (fun acc p => acc + p.price) a = a + (ps.map Product.price).sum := by
  intro ps
  induction ps with
  | nil => intro a; simp
  | cons p t ih => intro a; simp [ih, add_assoc]

theorem lookupCount_cons_eq {kv : String × Nat} {m : List (String × Nat)}
    {c : String} (h : (kv.1 == c) = true) : lookupCount (kv :: m) c = kv.2 := by
  simp [lookupCount, List.find?_cons, h]

theorem lookupCount_cons_ne {kv : String × Nat} {m : List (String × Nat)}
    {c : String} (h : (kv.1 == c) = false) :
    lookupCount (kv :: m) c = lookupCount m c := by
  simp [lookupCount, List.find?_cons, h]

theorem bumpCategory_cons_ne {kv : String × Nat} {m : List (String × Nat)}
    {c : String} (h : (kv.1 == c) = false) :
    bumpCategory (kv :: m) c = kv :: bumpCategory m c := by
  have hkc : ¬kv.1 = c := by simpa using h
  unfold bumpCategory
  simp only [List.any_cons, h, Bool.false_or]
  cases ht : m.any (fun kv => kv.1 == c) <;> simp [h, hkc]

theorem bumpCategory_cons_eq {kv : String × Nat} {m : List (String × Nat)}
    {c : String} (h : (kv.1 == c) = true) :
    bumpCategory (kv :: m) c =
      (kv.1, kv.2 + 1) ::
        m.map (fun kv => if kv.1 == c then (kv.1, kv.2 + 1) else kv) := by
  have hkc : kv.1 = c := by simpa using h
  unfold bumpCategory
  simp [List.any_cons, h, hkc]

theorem lookupCount_bump_self (c : String) :
    ∀ m : List (String × Nat),
      lookupCount (bumpCategory m c) c = lookupCount m c + 1 := by
  intro m
  induction m with
  | nil => simp [bumpCategory, lookupCount, List.find?_cons]
  | cons kv t ih =>
    cases h : kv.1 == c with
    | true =>
      rw [bumpCategory_cons_eq h, @lookupCount_cons_eq (kv.1, kv.2 + 1) _ _ h,
        lookupCount_cons_eq h]
    | false =>
      rw [bumpCategory_cons_ne h, lookupCount_cons_ne h, lookupCount_cons_ne h, ih]

theorem lookupCount_bump_map {c c' : String} (hne : (c == c') = false) :
    ∀ t : List (String × Nat),
      lookupCount (t.map (fun kv => if kv.1 == c then (kv.1, kv.2 + 1) else kv)) c' =
        lookupCount t c' := by
  intro t
  induction t with
  | nil => rfl
  | cons kv u ih =>
    simp only [List.map_cons]
    by_cases hk : kv.1 = c
    · have hb : (kv.1 == c) = true := by simpa using hk
      have h1 : (kv.1 == c') = false := by rw [hk]; exact hne
      rw [if_pos hb, @lookupCount_cons_ne (kv.1, kv.2 + 1) _ _ h1,
        lookupCount_cons_ne h1, ih]
    · have hb : ¬((kv.1 == c) = true) := by simpa using hk
      rw [if_neg hb]
      by_cases hk' : kv.1 = c'
      · have hb' : (kv.1 == c') = true := by simpa using hk'
        rw [lookupCount_cons_eq hb', lookupCount_cons_eq hb']
      · have hb' : (kv.1 == c') = false := by simpa using hk'
        rw [lookupCount_cons_ne hb', lookupCount_cons_ne hb', ih]

theorem lookupCount_bump_ne {c c' : String} (hne : (c == c') = false) :
    ∀ m : List (String × Nat),
      lookupCount (bumpCategory m c) c' = lookupCount m c' := by
  intro m
  induction m with
  | nil =>
    simp [bumpCategory, lookupCount, List.find?_cons, hne]
  | cons kv t ih =>
    by_cases hk : kv.1 = c
    · have hb : (kv.1 == c) = true := by simpa using hk
      have h1 : (kv.1 == c') = false := by rw [hk]; exact hne
      rw [bumpCategory_cons_eq hb,
        @lookupCount_cons_ne (kv.1, kv.2 + 1) _ _ h1, lookupCount_cons_ne h1]
      exact lookupCount_bump_map hne t
    · have hb : (kv.1 == c) = false := by simpa using hk
      rw [bumpCategory_cons_ne hb]
      by_cases hk' : kv.1 = c'
      · have hb' : (kv.1 == c') = true := by simpa using hk'
        rw [lookupCount_cons_eq hb', lookupCount_cons_eq hb']
      · have hb' : (kv.1 == c') = false := by simpa using hk'
        rw [lookupCount_cons_ne hb', lookupCount_cons_ne hb', ih]

theorem keys_bump (m : List (String × Nat)) (c : String) :
    (bumpCategory m c).map Prod.fst =
      if m.any (fun kv => kv.1 == c) then m.map Prod.fst
      else m.map Prod.fst ++ [c] := by
  unfold bumpCategory
  cases h : m.any (fun kv => kv.1 == c) with
  | true =>
    simp only [if_true, List.map_map]
    apply List.map_congr_left
    intro kv _
    by_cases hk : kv.1 = c <;> simp [hk]
  | false => simp

theorem keys_bump_nodup {m : List (String × Nat)} {c : String}
    (h : (m.map Prod.fst).Nodup) : ((bumpCategory m c).map Prod.fst).Nodup := by
  rw [keys_bump]
  cases ha : m.any (fun kv => kv.1 == c) with
  | true => simpa using h
  | false =>
    simp only [if_false, Bool.false_eq_true, if_neg]
    rw [List.nodup_append]
    refine ⟨h, List.nodup_singleton c, ?_⟩
    intro a hmem hmem'
    simp only [List.mem_singleton] at hmem'
    subst hmem'
    obtain ⟨kv, hkv, rfl⟩ := List.mem_map.mp hmem
    have htrue : (m.any fun kv' => kv'.1 == kv.1) = true :=
      List.any_eq_true.mpr ⟨kv, hkv, by simp⟩
    rw [ha] at htrue
    cases htrue

theorem mem_keys_bump {m : List (String × Nat)} {c c' : String} :
    c' ∈ (bumpCategory m c).map Prod.fst ↔ c' ∈ m.map Prod.fst ∨ c' = c := by
  rw [keys_bump]
  cases ha : m.any (fun kv => kv.1 == c) with
  | true =>
    simp only [if_true]
    constructor
    · exact Or.inl
    · rintro (h | rfl)
      · exact h
      · obtain ⟨kv, hkv, hk⟩ := List.any_eq_true.mp ha
        exact List.mem_map.mpr ⟨kv, hkv, by simpa using hk⟩
  | false => simp

theorem lookupCount_fold (c : String) :
    ∀ (ps : List Product) (m : List (String × Nat)),
      lookupCount (ps.foldl (fun m p => bumpCategory m p.category) m) c =
        lookupCount m c + (ps.filter (fun p => p.category == c)).length := by
  intro ps
  induction ps with
  | nil => intro m; simp
  | cons p t ih =>
    intro m
    simp only [List.foldl_cons]
    rw [ih]
    cases h : p.category == c with
    | true =>
      have : p.category = c := by simpa using h
      rw [this, lookupCount_bump_self, List.filter_cons_of_pos (by simpa using h)]
      simp [Nat.add_assoc, Nat.add_comm 1]
    | false =>
      rw [lookupCount_bump_ne h, List.filter_cons_of_neg (by simp [h])]

theorem keys_fold_nodup :
    ∀ (ps : List Product) (m : List (String × Nat)),
      (m.map Prod.fst).Nodup →
        ((ps.foldl (fun m p => bumpCategory m p.category) m).map Prod.fst).Nodup := by
  intro ps
  induction ps with
  | nil => intro m h; exact h
  | cons p t ih =>
    intro m h
    exact ih (bumpCategory m p.category) (keys_bump_nodup h)

theorem mem_keys_fold (c : String) :
    ∀ (ps : List Product) (m : List (String × Nat)),
      c ∈ (ps.foldl (fun m p => bumpCategory m p.category) m).map Prod.fst ↔
        c ∈ m.map Prod.fst ∨ c ∈ ps.map (fun p => p.category) := by
  intro ps
  induction ps with
  | nil => intro m; simp
  | cons p t ih =>
    intro m
    simp only [List.foldl_cons, List.map_cons, List.mem_cons]
    rw [ih, mem_keys_bump]
    tauto

/-- C8.  The statistics operation computes, over the full unfiltered
collection: the total count, the in-stock and out-of-stock counts (which
partition the collection), a mapping that associates each distinct present
category with the number of products in it (with no duplicate keys, and whose
keys are exactly the categories present), the average price formatted by
`toFixed(2)` — the number `0` when the collection is empty, with no division
performed — and the `toFixed(2)`-formatted total price sum. -/
theorem c8_stats (ps : List Product) :
    (getStats ps).totalProducts = ps.length ∧
    (getStats ps).inStockCount = ps.countP (fun p => p.inStock) ∧
    (getStats ps).outOfStockCount = ps.countP (fun p => !p.inStock) ∧
    (getStats ps).inStockCount + (getStats ps).outOfStockCount = ps.length ∧
    (∀ c, lookupCount (getStats ps).categoryCounts c =
      (ps.filter (fun p => p.category == c)).length) ∧
    (∀ c, c ∈ (getStats ps).categoryCounts.map Prod.fst ↔
      c ∈ ps.map (fun p => p.category)) ∧
    ((getStats ps).categoryCounts.map Prod.fst).Nodup ∧
    (getStats ps).averagePrice = (if ps.length = 0 then JsonVal.num 0
      else .str (jsToFixed2 ((ps.map (fun p => p.price)).sum / (ps.length : ℚ)))) ∧
    (getStats ps).totalValue = jsToFixed2 ((ps.map (fun p => p.price)).sum) ∧
    (getStats ([] : List Product)).categoryCounts = [] ∧
    (getStats ([] : List Product)).averagePrice = JsonVal.num 0 ∧
    (getStats ([] : List Product)).totalValue = jsToFixed2 0 := by
  have hsum : ps.foldl (fun acc p => acc + p.price) 0 = (ps.map Product.price).sum := by
    rw [foldl_add_price]; ring
  refine ⟨rfl, (List.countP_eq_length_filter _ _).symm ▸ rfl, ?_, ?_, ?_, ?_, ?_, ?_, ?_, rfl, rfl, rfl⟩
  · show (ps.filter (fun p => !p.inStock)).length = ps.countP (fun p => !p.inStock)
    rw [List.countP_eq_length_filter]
  · show (ps.filter (fun p => p.inStock)).length +
      (ps.filter (fun p => !p.inStock)).length = ps.length
    exact (@List.length_eq_length_filter_add _ ps (fun p => p.inStock)).symm
  · intro c
    show lookupCount (ps.foldl (fun m p => bumpCategory m p.category) []) c = _
    rw [lookupCount_fold]
    simp [lookupCount]
  · intro c
    show c ∈ (ps.foldl (fun m p => bumpCategory m p.category) []).map Prod.fst ↔ _
    rw [mem_keys_fold]
    simp
  · show ((ps.foldl (fun m p => bumpCategory m p.category) []).map Prod.fst).Nodup
    exact keys_fold_nodup ps [] (by simp)
  · show (if 0 < ps.length then JsonVal.str (jsToFixed2
        ((ps.foldl (fun acc p => acc + p.price) 0) / (ps.length : ℚ)))
      else JsonVal.num 0) = _
    rw [hsum]
    by_cases h : ps.length = 0
    · rw [if_neg (by omega), if_pos h]
    · rw [if_pos (by omega), if_neg h]
  · show jsToFixed2 (ps.foldl (fun acc p => acc + p.price) 0) = _
    rw [hsum]

/-! ### C9 and C10: authentication -/

/-- C9.  A POST create request with no `x-api-key` header is rejected with
`AuthenticationError` / `API key is required` mapped to HTTP 401 and leaves
the collection unchanged; a present, nonempty but mismatched key is rejected
with `AuthenticationError` / `Invalid API key`, also 401 and also without
mutating the collection. -/
theorem c9_post_auth_401 (validKey : String) (s : CatalogState) (b : Body) :
    postProduct validKey s none b =
      (.error ⟨401, "AuthenticationError", "API key is required"⟩, s) ∧
    ∀ k, k ≠ "" → k ≠ validKey →
      postProduct validKey s (some k) b =
        (.error ⟨401, "AuthenticationError", "Invalid API key"⟩, s) := by
  constructor
  · rfl
  · intro k hk hkv
    have hauth : authenticateApiKey validKey (some k) = some apiKeyInvalid := by
      simp [authenticateApiKey, hk, hkv]
    simp [postProduct, hauth, apiKeyInvalid]

/-- Witness for C9: against the seeded server with the default secret, an
absent key yields `API key is required` and the wrong key `bad` yields
`Invalid API key`, both HTTP 401, both leaving the state untouched — even
though the request body is a fully valid candidate. -/
theorem c9_post_auth_401_witness :
    (("bad" : String) ≠ "" ∧ ("bad" : String) ≠ "your-secret-api-key") ∧
    postProduct "your-secret-api-key" initialState none
        ⟨.str "ab", .str "abcde", .num (mkRat 3 1), .str "ab", .bool true⟩ =
      (.error ⟨401, "AuthenticationError", "API key is required"⟩, initialState) ∧
    postProduct "your-secret-api-key" initialState (some "bad")
        ⟨.str "ab", .str "abcde", .num (mkRat 3 1), .str "ab", .bool true⟩ =
      (.error ⟨401, "AuthenticationError", "Invalid API key"⟩, initialState) :=
  ⟨⟨by decide, by decide⟩,
    (c9_post_auth_401 "your-secret-api-key" initialState
      ⟨.str "ab", .str "abcde", .num (mkRat 3 1), .str "ab", .bool true⟩).1,
    (c9_post_auth_401 "your-secret-api-key" initialState
      ⟨.str "ab", .str "abcde", .num (mkRat 3 1), .str "ab", .bool true⟩).2
      "bad" (by decide) (by decide)⟩

/-- C10.  For POST and PUT, when the API key is missing or wrong the request
fails with the 401 `AuthenticationError` before validation is ever consulted:
the outcome is the same for every request body (so validation rules play no
part), the state is unchanged, and the error is never the `ValidationError`
kind. -/
theorem c10_auth_before_validation (validKey : String) (s : CatalogState)
    (key : Option String) (id : Nat)
    (h : ∀ k, key = some k → k ≠ validKey) :
    ∃ e : ErrObj, authenticateApiKey validKey key = some e ∧
      e.status = 401 ∧ e.error = "AuthenticationError" ∧
      e.error ≠ "ValidationError" ∧
      (∀ b : Body, postProduct validKey s key b = (.error e, s)) ∧
      (∀ b : Body, putProduct validKey s key id b = (.error e, s)) ∧
      ∀ b b' : Body,
        postProduct validKey s key b = postProduct validKey s key b' ∧
        putProduct validKey s key id b = putProduct validKey s key id b' := by
  have hmain : ∃ e : ErrObj, authenticateApiKey validKey key = some e ∧
      e.status = 401 ∧ e.error = "AuthenticationError" := by
    cases key with
    | none => exact ⟨apiKeyRequired, rfl, rfl, rfl⟩
    | some k =>
      by_cases hke : k = ""
      · exact ⟨apiKeyRequired, by simp [authenticateApiKey, hke], rfl, rfl⟩
      · exact ⟨apiKeyInvalid, by simp [authenticateApiKey, hke, h k rfl], rfl, rfl⟩
  obtain ⟨e, hauth, h401, herr⟩ := hmain
  have hpost : ∀ b : Body, postProduct validKey s key b = (.error e, s) := by
    intro b; simp [postProduct, hauth]
  have hput : ∀ b : Body, putProduct validKey s key id b = (.error e, s) := by
    intro b; simp [putProduct, hauth]
  exact ⟨e, hauth, h401, herr, by rw [herr]; decide, hpost, hput,
    fun b b' => ⟨(hpost b).trans (hpost b').symm, (hput b).trans (hput b').symm⟩⟩

/-- Witness for C10: with the wrong key `wrong` and a body violating every
validation rule, both POST and PUT still answer 401 `Invalid API key` (never
`ValidationError`) and leave the seeded state unchanged. -/
theorem c10_auth_before_validation_witness :
    (∀ k, (some "wrong" : Option String) = some k → k ≠ "your-secret-api-key") ∧
    postProduct "your-secret-api-key" initialState (some "wrong")
        ⟨.undef, .undef, .undef, .undef, .undef⟩ =
      (.error ⟨401, "AuthenticationError", "Invalid API key"⟩, initialState) ∧
    putProduct "your-secret-api-key" initialState (some "wrong") 1
        ⟨.undef, .undef, .undef, .undef, .undef⟩ =
      (.error ⟨401, "AuthenticationError", "Invalid API key"⟩, initialState) := by
  have h := c10_auth_before_validation "your-secret-api-key" initialState
    (some "wrong") 1 (fun k hk => by cases hk; decide)
  obtain ⟨e, hauth, -, -, -, hpost, hput, -⟩ := h
  have he : e = ⟨401, "AuthenticationError", "Invalid API key"⟩ := by
    have hx : authenticateApiKey "your-secret-api-key" (some "wrong") =
        some (⟨401, "AuthenticationError", "Invalid API key"⟩ : ErrObj) := by decide
    rw [hx] at hauth
    exact (Option.some_inj.mp hauth).symm
  subst he
  exact ⟨fun k hk => by cases hk; decide, hpost _, hput _⟩

end Catalog
